import Mathlib

/-
Shallow embedding of the ledger engine of this repository, centered on
src/Ledger.cpp.  The collaborators SHAMap, AccountState, Transaction,
Serializer and the Database layer are not under src/; they are modelled from
the specification (each such definition carries a doc comment starting
"Modelled from the spec:").

Modelling conventions:
  * 256-bit hashes, 160-bit account ids and the unsigned integer header
    fields are modelled as Nat.  The specification declares arithmetic
    overflow/underflow (balance overflow, seq underflow, mutation after
    acceptance) a fatal invariant violation with no recoverable post-state,
    so the embedding works in the non-fatal regime with unbounded naturals;
    no claim under verification exercises a wraparound state.
  * C++ objects mutated through shared pointers (the Transaction passed to
    applyTransaction / removeTransaction, the previous ledger whose hash
    cache is filled by the successor constructor) are modelled by returning
    the updated value alongside the result.
  * A null SHAMap::pointer (the rehydrate constructor leaves both maps
    unset) is modelled as `none`.
-/

namespace RippleLedger

/-- Transaction application result codes (the TransResult enumeration of
Ledger.h, with the names used throughout Ledger.cpp). -/
inductive TransResult where
  | TR_ERROR
  | TR_SUCCESS
  | TR_NOTFOUND
  | TR_ALREADY
  | TR_BADLSEQ
  | TR_TOOSMALL
  | TR_BADACCT
  | TR_INSUFF
  | TR_PASTASEQ
  | TR_PREASEQ
deriving DecidableEq

export TransResult (TR_ERROR TR_SUCCESS TR_NOTFOUND TR_ALREADY TR_BADLSEQ
  TR_TOOSMALL TR_BADACCT TR_INSUFF TR_PASTASEQ TR_PREASEQ)

/-- Transaction status values used by Ledger.cpp (`NEW`, `INCLUDED`,
`COMMITTED`, `REMOVED`; the spec's enumeration). -/
inductive TransStatus where
  | NEW
  | INCLUDED
  | COMMITTED
  | REMOVED
deriving DecidableEq

/-- Modelled from the spec: the authenticated map (SHAMap; SHAMap.cpp is not
under src/).  A 256-bit-keyed map from keys to values; its Merkle root is a
deterministic function of the contents, so two states agree on their root
hash exactly when the maps below are equal.  Values are stored structurally
rather than as serialized bytes, justified by the spec's round-trip law
(parse(serialize(x)) = x, section 8 property 5). -/
abbrev SMap (α : Type) : Type := List (Nat × α)

/-- Modelled from the spec: SHAMap::peekItem — read the value stored under a
key without touching dirty state; `none` when the key is absent. -/
def peekItem {α : Type} : SMap α → Nat → Option α
  | [], _ => none
  | (k', v) :: m, k => if k = k' then some v else peekItem m k

/-- Modelled from the spec: SHAMap::updateGiveItem, the write-through used by
Ledger::updateAccountState (Ledger.cpp lines 89-94).  It replaces the entry
in place when the key is present and stores a new entry otherwise: section
4.E step 6 and scenario S1 require update_account_state to persist an
implicitly created (hence previously absent) recipient, and the in-file unit
test (Ledger.cpp lines 281-295) exercises exactly that path. -/
def updateGiveItem {α : Type} : SMap α → Nat → α → SMap α
  | [], k, v => [(k, v)]
  | (k', v') :: m, k, v =>
      if k = k' then (k, v) :: m else (k', v') :: updateGiveItem m k v

/-- Remove the first entry stored under a key (helper for delItem). -/
def delFirst {α : Type} : SMap α → Nat → SMap α
  | [], _ => []
  | (k', v') :: m, k => if k = k' then m else (k', v') :: delFirst m k

/-- Modelled from the spec: SHAMap::delItem — remove; fails (and leaves the
map unchanged) when the key is absent. -/
def delItem {α : Type} (m : SMap α) (k : Nat) : Bool × SMap α :=
  if (peekItem m k).isSome then (true, delFirst m k) else (false, m)

/-- Modelled from the spec: SHAMap::addGiveItem — insert; fails (and leaves
the map unchanged) when the key is already present. -/
def addGiveItem {α : Type} (m : SMap α) (k : Nat) (v : α) : Bool × SMap α :=
  if (peekItem m k).isSome then (false, m) else (true, updateGiveItem m k v)

/-- Modelled from the spec: AccountState (AccountState.cpp is not under
src/) — the per-account balance and sequence counter.  The account id is the
map key, so it is not repeated in the stored value.  credit adds to the
balance, charge subtracts (callers establish balance ≥ amount first),
incSeq/decSeq are plus/minus one on seq. -/
structure AccountState where
  balance : Nat
  seq : Nat
deriving DecidableEq

/-- Modelled from the spec: the signed content of a Transaction
(Transaction.cpp is not under src/) — the fields Ledger.cpp reads through
getID, getSourceLedger, getFromAccount, getToAccount, getFromAccountSeq,
getAmount and getFee, i.e. the content covered by the stable id.  This is
what the transaction map stores (the status is an in-memory record only and
is not part of the signed form, spec section 4.D). -/
structure TransactionData where
  id : Nat
  sourceLedger : Nat
  fromAccount : Nat
  toAccount : Nat
  fromAccountSeq : Nat
  amount : Nat
  fee : Nat
deriving DecidableEq

/-- Modelled from the spec: a Transaction object — its signed content plus
the in-memory status record maintained by setStatus(status, ledgerSeq). -/
structure Transaction where
  data : TransactionData
  status : TransStatus
  statusLedger : Nat
deriving DecidableEq

/-- Big-endian fixed-width byte encoding used by the Serializer: `w` bytes,
most significant first, of `n % 256^w`. -/
def toBytesBE : Nat → Nat → List Nat
  | 0, _ => []
  | w + 1, n => toBytesBE w (n / 256) ++ [n % 256]

/-- Modelled from the spec: the SHA-512-half primitive
(Serializer::getSHA512Half; Serializer.cpp is not under src/), the first 32
bytes of SHA-512 of the accumulated bytes.  The development relies only on
its being a deterministic function of the byte string, so it is modelled as
one (a 256-bit polynomial fold over the bytes; the odd base keeps every byte
position significant modulo 2^256). -/
def sha512Half (bs : List Nat) : Nat :=
  (bs.foldl (fun a b => a * 257 + b % 256 + 1) 1) % (2 ^ 256)

/-- Modelled from the spec: the Serializer — an append-only byte buffer with
fixed-width big-endian appends. -/
structure Serializer where
  bytes : List Nat

/-- Serializer::add32 — append 4 bytes, big-endian. -/
def Serializer.add32 (s : Serializer) (n : Nat) : Serializer :=
  ⟨s.bytes ++ toBytesBE 4 n⟩

/-- Serializer::add64 — append 8 bytes, big-endian. -/
def Serializer.add64 (s : Serializer) (n : Nat) : Serializer :=
  ⟨s.bytes ++ toBytesBE 8 n⟩

/-- Serializer::add256 — append 32 bytes, big-endian. -/
def Serializer.add256 (s : Serializer) (n : Nat) : Serializer :=
  ⟨s.bytes ++ toBytesBE 32 n⟩

/-- Serializer::getSHA512Half. -/
def Serializer.getSHA512Half (s : Serializer) : Nat :=
  sha512Half s.bytes

/-- The Ledger object of Ledger.cpp: the six header fields, the cached
header hash with its validity flag, the lifecycle flags, and the two
sub-maps (null map pointers modelled as `none`). -/
structure Ledger where
  parentHash : Nat
  transHash : Nat
  accountHash : Nat
  feeHeld : Nat
  timeStamp : Nat
  ledgerSeq : Nat
  closed : Bool
  validHash : Bool
  accepted : Bool
  hash : Nat
  transactionMap : Option (SMap TransactionData)
  accountStateMap : Option (SMap AccountState)
deriving DecidableEq

/-- Ledger::addRaw (Ledger.cpp lines 54-62): append the six header fields to
the serializer, in source order and with the source widths. -/
def Ledger.addRaw (l : Ledger) (s : Serializer) : Serializer :=
  (((((s.add32 l.ledgerSeq).add64 l.feeHeld).add256
      l.parentHash).add256 l.transHash).add256 l.accountHash).add64 l.timeStamp

/-- The byte string Ledger::updateHash feeds to SHA-512-half: addRaw into an
empty serializer. -/
def Ledger.rawHeader (l : Ledger) : List Nat :=
  (l.addRaw ⟨[]⟩).bytes

/-- Ledger::updateHash (Ledger.cpp lines 46-52): recompute the cached header
hash from the serialized header and set the validity flag. -/
def Ledger.updateHash (l : Ledger) : Ledger :=
  { l with hash := (l.addRaw ⟨[]⟩).getSHA512Half, validHash := true }

/-- Ledger::getHash (Ledger.cpp lines 300-304): recompute the cached hash
only when the validity flag is unset, then return it.  The C++ method
mutates the object (fills the cache), so the updated ledger is returned
alongside the hash. -/
def Ledger.getHash (l : Ledger) : Nat × Ledger :=
  if l.validHash then (l.hash, l) else ((l.updateHash).hash, l.updateHash)

/-- The genesis constructor Ledger(masterID, startAmount) (Ledger.cpp lines
16-27): zeroed header fields, empty maps, one account credited with the
start amount at sequence 0. -/
def Ledger.genesis (masterID startAmount : Nat) : Ledger :=
  { parentHash := 0, transHash := 0, accountHash := 0, feeHeld := 0,
    timeStamp := 0, ledgerSeq := 0, closed := false, validHash := false,
    accepted := false, hash := 0, transactionMap := some [],
    accountStateMap :=
      some (addGiveItem ([] : SMap AccountState) masterID
              ⟨startAmount, 0⟩).2 }

/-- The rehydrate constructor Ledger(parentHash, transHash, accountHash,
feeHeld, timeStamp, ledgerSeq) (Ledger.cpp lines 29-36): a header-only
ledger (both map pointers left null) whose hash cache is filled by
updateHash. -/
def Ledger.rehydrate (parentHash transHash accountHash feeHeld timeStamp
    ledgerSeq : Nat) : Ledger :=
  Ledger.updateHash
    { parentHash := parentHash, transHash := transHash,
      accountHash := accountHash, feeHeld := feeHeld,
      timeStamp := timeStamp, ledgerSeq := ledgerSeq, closed := false,
      validHash := false, accepted := false, hash := 0,
      transactionMap := none, accountStateMap := none }

/-- The successor constructor Ledger(prevLedger, ts) (Ledger.cpp lines
38-44).  Its member-initializer list omits mFeeHeld (compare the genesis and
rehydrate constructors, which set it), so that 2011-era C++ member is left
indeterminate; the indeterminate value is made explicit as the `indet`
parameter.  The uint256 members mTransHash, mAccountHash and mHash
default-construct to zero.  getHash() on the previous ledger fills its hash
cache, so the updated previous ledger is returned as well. -/
def Ledger.successor (prev : Ledger) (ts indet : Nat) : Ledger × Ledger :=
  let p := (prev.getHash).2
  ({ parentHash := p.hash, transHash := 0, accountHash := 0,
     feeHeld := indet, timeStamp := ts, ledgerSeq := prev.ledgerSeq + 1,
     closed := false, validHash := false, accepted := false, hash := 0,
     transactionMap := some [],
     accountStateMap := prev.accountStateMap }, p)

/-- Ledger::getAccountState (Ledger.cpp lines 64-79): peek the account map;
null pointer when the account is absent.  (The source dereferences a null
account map; callers below always supply a present map.) -/
def Ledger.getAccountState (l : Ledger) (accountID : Nat) :
    Option AccountState :=
  match l.accountStateMap with
  | some am => peekItem am accountID
  | none => none

/-- Ledger::getBalance (Ledger.cpp lines 81-87): 0 when the account is
absent, its stored balance otherwise. -/
def Ledger.getBalance (l : Ledger) (accountID : Nat) : Nat :=
  match l.accountStateMap with
  | some am =>
      match peekItem am accountID with
      | some st => st.balance
      | none => 0
  | none => 0

/-- The tail of Ledger::applyTransaction after the account lookups and the
implicit-recipient block (Ledger.cpp lines 163-195): the balance and
sequence checks against the sender snapshot `fv`, then the mutation.  `am1`
is the account map as already mutated by the implicit-recipient write (equal
to the original map when no creation happened), and `tv` is the in-memory
recipient snapshot.  The source's write order is preserved:
updateAccountState(fromAccount), updateAccountState(toAccount),
addTransaction(trans). -/
def applyTransactionTail (l : Ledger) (t : Transaction)
    (tm : SMap TransactionData) (am1 : SMap AccountState)
    (fv tv : AccountState) : TransResult × Ledger × Transaction :=
  if fv.balance < t.data.amount then
    (TR_INSUFF, { l with accountStateMap := some am1 }, t)
  else if t.data.fromAccountSeq < fv.seq then
    (TR_PASTASEQ, { l with accountStateMap := some am1 }, t)
  else if fv.seq < t.data.fromAccountSeq then
    (TR_PREASEQ, { l with accountStateMap := some am1 }, t)
  else
    let fv' : AccountState := ⟨fv.balance - t.data.amount, fv.seq + 1⟩
    let tv' : AccountState :=
      ⟨tv.balance + (t.data.amount - t.data.fee), tv.seq⟩
    let t' : Transaction :=
      { t with status := TransStatus.INCLUDED, statusLedger := l.ledgerSeq }
    let am2 := updateGiveItem am1 t.data.fromAccount fv'
    let am3 := updateGiveItem am2 t.data.toAccount tv'
    let tm' := (addGiveItem tm t.data.id t.data).2
    (TR_SUCCESS,
      { l with feeHeld := l.feeHeld + t.data.fee,
               transactionMap := some tm',
               accountStateMap := some am3 }, t')

/-- Ledger::applyTransaction (Ledger.cpp lines 127-196).  The duplicate
check peeks the transaction map (the source goes through getTransaction,
which returns a parsed transaction exactly when peekItem finds the id).  The
implicit-recipient block (source comment: "temporary code") creates
(balance 0, seq 1) and writes it through updateAccountState before the
remaining checks; when the sender is absent no write happens and TR_BADACCT
is returned.  The mutated transaction (setStatus on success) is returned
alongside the result and the mutated ledger. -/
def Ledger.applyTransaction (l : Ledger) (t : Transaction) :
    TransResult × Ledger × Transaction :=
  if l.ledgerSeq < t.data.sourceLedger then (TR_BADLSEQ, l, t)
  else if t.data.amount < t.data.fee then (TR_TOOSMALL, l, t)
  else
    match l.transactionMap, l.accountStateMap with
    | some tm, some am =>
      if (peekItem tm t.data.id).isSome then (TR_ALREADY, l, t)
      else
        match peekItem am t.data.fromAccount with
        | none => (TR_BADACCT, l, t)
        | some fv =>
          match peekItem am t.data.toAccount with
          | none =>
              applyTransactionTail l t tm
                (updateGiveItem am t.data.toAccount ⟨0, 1⟩) fv ⟨0, 1⟩
          | some tv => applyTransactionTail l t tm am fv tv
    | _, _ => (TR_ERROR, l, t)

/-- Ledger::removeTransaction (Ledger.cpp lines 198-237): the reverse of
apply.  Source order is preserved: the presence and account checks, then the
in-memory reversal, the fee decrement and setStatus(REMOVED), then
delTransaction (an impossible failure there would return TR_ERROR with the
fee already decremented, exactly as in the source), then the two account
writes. -/
def Ledger.removeTransaction (l : Ledger) (t : Transaction) :
    TransResult × Ledger × Transaction :=
  match l.transactionMap, l.accountStateMap with
  | some tm, some am =>
    if (peekItem tm t.data.id).isNone then (TR_NOTFOUND, l, t)
    else
      match peekItem am t.data.fromAccount, peekItem am t.data.toAccount with
      | some fv, some tv =>
        if tv.balance < t.data.amount then (TR_INSUFF, l, t)
        else if fv.seq ≠ t.data.fromAccountSeq + 1 then (TR_PASTASEQ, l, t)
        else
          let fv' : AccountState := ⟨fv.balance + t.data.amount, fv.seq - 1⟩
          let tv' : AccountState :=
            ⟨tv.balance - (t.data.amount - t.data.fee), tv.seq⟩
          let t' : Transaction :=
            { t with status := TransStatus.REMOVED,
                     statusLedger := l.ledgerSeq }
          let fee' := l.feeHeld - t.data.fee
          match delItem tm t.data.id with
          | (false, _) => (TR_ERROR, { l with feeHeld := fee' }, t')
          | (true, tm') =>
            let am2 := updateGiveItem am t.data.fromAccount fv'
            let am3 := updateGiveItem am2 t.data.toAccount tv'
            (TR_SUCCESS,
              { l with feeHeld := fee', transactionMap := some tm',
                       accountStateMap := some am3 }, t')
      | _, _ => (TR_BADACCT, l, t)
  | _, _ => (TR_ERROR, l, t)

/-- The precondition cascade exactly as claim C1 words it (a comparison
definition written from the spec, to be proved equal to the result computed
by the source-derived applyTransaction): first failing check is returned,
TR_SUCCESS when every check passes. -/
def specApplyResult (l : Ledger) (t : Transaction) : TransResult :=
  if t.data.sourceLedger > l.ledgerSeq then TR_BADLSEQ
  else if t.data.amount < t.data.fee then TR_TOOSMALL
  else
    match l.transactionMap, l.accountStateMap with
    | some tm, some am =>
      if (peekItem tm t.data.id).isSome then TR_ALREADY
      else
        match peekItem am t.data.fromAccount with
        | none => TR_BADACCT
        | some fv =>
          if fv.balance < t.data.amount then TR_INSUFF
          else if fv.seq > t.data.fromAccountSeq then TR_PASTASEQ
          else if fv.seq < t.data.fromAccountSeq then TR_PREASEQ
          else TR_SUCCESS
    | _, _ => TR_ERROR

/-- Modelled from the spec: one row of the Ledgers table (section 6 schema;
the Database layer is not under src/). -/
structure LedgerRow where
  ledgerHash : Nat
  prevHash : Nat
  accountHash : Nat
  transHash : Nat
  feeHeld : Nat
  closingTime : Nat
  ledgerSeq : Nat
deriving DecidableEq

/-- Ledger::getSQL (Ledger.cpp lines 336-371) applied to the row the query
produced (`none` when the query returned no row): construct a Ledger through
the rehydrate constructor from the stored fields and verify that its header
hash equals the stored LedgerHash; on mismatch return no ledger. -/
def getSQL (row : Option LedgerRow) : Option Ledger :=
  match row with
  | none => none
  | some r =>
    let ret := Ledger.rehydrate r.prevHash r.transHash r.accountHash
                 r.feeHeld r.closingTime r.ledgerSeq
    if (ret.getHash).1 ≠ r.ledgerHash then none else some (ret.getHash).2

/-- Ledger::loadByIndex (Ledger.cpp lines 373-379): SELECT the row with the
given LedgerSeq, then getSQL. -/
def loadByIndex (db : List LedgerRow) (ledgerIndex : Nat) : Option Ledger :=
  getSQL (db.find? (fun r => r.ledgerSeq == ledgerIndex))

/-- Ledger::loadByHash (Ledger.cpp lines 381-387): SELECT the row with the
given LedgerHash, then getSQL. -/
def loadByHash (db : List LedgerRow) (ledgerHash : Nat) : Option Ledger :=
  getSQL (db.find? (fun r => r.ledgerHash == ledgerHash))

/-- A concrete open ledger for the S7 fee-accounting scenario: account 1
holds 100000 at seq 0 and account 2 exists with balance 0. -/
def s7Ledger : Ledger :=
  { parentHash := 0, transHash := 0, accountHash := 0, feeHeld := 0,
    timeStamp := 0, ledgerSeq := 0, closed := false, validHash := false,
    accepted := false, hash := 0, transactionMap := some [],
    accountStateMap := some [(1, ⟨100000, 0⟩), (2, ⟨0, 0⟩)] }

/-- The S7 transaction: 1 pays 2 amount 1000 with fee 10 at expected seq
0. -/
def s7Trans : Transaction :=
  ⟨⟨7, 0, 1, 2, 0, 1000, 10⟩, TransStatus.NEW, 0⟩

/-- A concrete open ledger for the reversibility scenario: account 1 holds
100000 and account 2 holds 5000 (at least the fee), both at seq 0. -/
def c6Ledger : Ledger :=
  { parentHash := 0, transHash := 0, accountHash := 0, feeHeld := 0,
    timeStamp := 0, ledgerSeq := 0, closed := false, validHash := false,
    accepted := false, hash := 0, transactionMap := some [],
    accountStateMap := some [(1, ⟨100000, 0⟩), (2, ⟨5000, 0⟩)] }

/-- The reversibility-scenario transaction: 1 pays 2 amount 1000 with fee
10 at expected seq 0. -/
def c6Trans : Transaction :=
  ⟨⟨9, 0, 1, 2, 0, 1000, 10⟩, TransStatus.NEW, 0⟩

/-- The ledger obtained by applying c6Trans to c6Ledger. -/
def c6Ledger1 : Ledger :=
  { parentHash := 0, transHash := 0, accountHash := 0, feeHeld := 10,
    timeStamp := 0, ledgerSeq := 0, closed := false, validHash := false,
    accepted := false, hash := 0,
    transactionMap := some [(9, c6Trans.data)],
    accountStateMap := some [(1, ⟨99000, 1⟩), (2, ⟨5990, 0⟩)] }

/-- c6Trans as mutated by the successful apply. -/
def c6Trans1 : Transaction :=
  ⟨c6Trans.data, TransStatus.INCLUDED, 0⟩

/-- A stored row whose LedgerHash is exactly the header hash the rehydrate
constructor recomputes from the other six fields. -/
def c9Row : LedgerRow :=
  { ledgerHash := ((Ledger.rehydrate 1 2 3 4 5 6).getHash).1, prevHash := 1,
    accountHash := 3, transHash := 2, feeHeld := 4, closingTime := 5,
    ledgerSeq := 6 }

/-- A corrupted row: same header fields but a LedgerHash (0) that does not
match the recomputed header hash. -/
def c9BadRow : LedgerRow :=
  { ledgerHash := 0, prevHash := 1, accountHash := 3, transHash := 2,
    feeHeld := 4, closingTime := 5, ledgerSeq := 6 }

theorem peekItem_updateGiveItem_self {α : Type} (m : SMap α) (k : Nat)
    (v : α) : peekItem (updateGiveItem m k v) k = some v := by
  induction m with
  | nil => simp [updateGiveItem, peekItem]
  | cons a r ih =>
    obtain ⟨k', v'⟩ := a
    by_cases h : k = k' <;> simp [updateGiveItem, peekItem, h, ih]

theorem peekItem_updateGiveItem_ne {α : Type} (m : SMap α) {j k : Nat}
    (v : α) (h : j ≠ k) :
    peekItem (updateGiveItem m k v) j = peekItem m j := by
  induction m with
  | nil => simp [updateGiveItem, peekItem, h]
  | cons a r ih =>
    obtain ⟨k', v'⟩ := a
    by_cases hk : k = k'
    · subst hk
      simp [updateGiveItem, peekItem, h]
    · by_cases hj : j = k' <;> simp [updateGiveItem, peekItem, hk, hj, ih]

theorem updateGiveItem_collapse {α : Type} (m : SMap α) (k : Nat)
    (v w : α) :
    updateGiveItem (updateGiveItem m k w) k v = updateGiveItem m k v := by
  induction m with
  | nil => simp [updateGiveItem]
  | cons a r ih =>
    obtain ⟨k', v'⟩ := a
    by_cases h : k = k' <;> simp [updateGiveItem, h, ih]

theorem updateGiveItem_peekItem_self {α : Type} {m : SMap α} {k : Nat}
    {v : α} (h : peekItem m k = some v) : updateGiveItem m k v = m := by
  induction m with
  | nil => simp [peekItem] at h
  | cons a r ih =>
    obtain ⟨k', v'⟩ := a
    by_cases hk : k = k'
    · subst hk
      simp [peekItem] at h
      simp [updateGiveItem, h]
    · simp [peekItem, hk] at h
      simp [updateGiveItem, hk, ih h]

theorem updateGiveItem_comm {α : Type} {m : SMap α} {k j : Nat}
    (v w : α) (hk : (peekItem m k).isSome) (hne : k ≠ j) :
    updateGiveItem (updateGiveItem m j w) k v
      = updateGiveItem (updateGiveItem m k v) j w := by
  induction m with
  | nil => simp [peekItem] at hk
  | cons a r ih =>
    obtain ⟨k', v'⟩ := a
    by_cases hkk : k = k'
    · subst hkk
      have hj : j ≠ k := fun h => hne h.symm
      simp [updateGiveItem, hj, hne]
    · by_cases hjk : j = k'
      · subst hjk
        simp [updateGiveItem, hkk]
      · have hk' : (peekItem r k).isSome := by
          simpa [peekItem, hkk] using hk
        simp [updateGiveItem, hkk, hjk, ih hk']

theorem delFirst_updateGiveItem {α : Type} {m : SMap α} {k : Nat}
    (v : α) (h : peekItem m k = none) :
    delFirst (updateGiveItem m k v) k = m := by
  induction m with
  | nil => simp [updateGiveItem, delFirst]
  | cons a r ih =>
    obtain ⟨k', v'⟩ := a
    by_cases hk : k = k'
    · simp [peekItem, hk] at h
    · simp [peekItem, hk] at h
      simp [updateGiveItem, delFirst, hk, ih h]

/-- Claim C1: for every transaction and every non-accepted open ledger,
applyTransaction evaluates its preconditions in the spec's fixed order and
returns the code of the first failing one: TR_BADLSEQ when the transaction's
source ledger exceeds the ledger sequence, else TR_TOOSMALL when the amount
is below the fee, else TR_ERROR when either map pointer is null, else
TR_ALREADY when the transaction map already holds the id, else TR_BADACCT
when the sender is absent, else TR_INSUFF when the sender's balance is below
the amount, else TR_PASTASEQ / TR_PREASEQ when the sender's stored sequence
is above / below the expected one (TR_SUCCESS when every check passes). -/
theorem applyTransaction_first_failure (l : Ledger) (t : Transaction)
    (_hacc : l.accepted = false) (_hcl : l.closed = false) :
    (l.applyTransaction t).1 = specApplyResult l t := by
  unfold Ledger.applyTransaction specApplyResult applyTransactionTail
  by_cases h1 : l.ledgerSeq < t.data.sourceLedger
  · simp [h1]
  · by_cases h2 : t.data.amount < t.data.fee
    · simp [h1, h2]
    · simp only [if_neg h1, if_neg h2, gt_iff_lt]
      rcases htm : l.transactionMap with _ | tm <;>
        rcases ham : l.accountStateMap with _ | am <;> simp only []
      by_cases h3 : (peekItem tm t.data.id).isSome
      · simp [h3]
      · simp only [if_neg h3]
        rcases hfrom : peekItem am t.data.fromAccount with _ | fv
        · rfl
        · rcases hto : peekItem am t.data.toAccount with _ | tv <;>
            simp only [] <;>
            by_cases h5 : fv.balance < t.data.amount <;>
            by_cases h6 : t.data.fromAccountSeq < fv.seq <;>
            by_cases h7 : fv.seq < t.data.fromAccountSeq <;>
            simp [h5, h6, h7]

/-- Witness for C1 at a concrete input: the genesis ledger with master
account 1 and a transaction whose amount is below its fee, where the cascade
stops at TR_TOOSMALL. -/
theorem applyTransaction_first_failure_witness :
    ((Ledger.genesis 1 100000).applyTransaction
        ⟨⟨7, 0, 1, 2, 0, 5, 10⟩, TransStatus.NEW, 0⟩).1
      = specApplyResult (Ledger.genesis 1 100000)
          ⟨⟨7, 0, 1, 2, 0, 5, 10⟩, TransStatus.NEW, 0⟩ :=
  applyTransaction_first_failure (Ledger.genesis 1 100000)
    ⟨⟨7, 0, 1, 2, 0, 5, 10⟩, TransStatus.NEW, 0⟩ rfl rfl

/-- Counterexample to claim C2 as stated: a self transfer (sender equals
recipient) satisfies every precondition, yet because applyTransaction writes
back two separately read snapshots of the same account, the second write
(the recipient credit, which never saw the charge or the sequence bump)
overwrites the first.  With balance 100000, amount 1000, fee 10, expected
seq 0, the account ends at balance 100990 and seq 0 instead of the claimed
99000 and 1. -/
theorem applyTransaction_self_transfer_counterexample :
    ((Ledger.genesis 1 100000).applyTransaction
        ⟨⟨7, 0, 1, 1, 0, 1000, 10⟩, TransStatus.NEW, 0⟩).1 = TR_SUCCESS
    ∧ ((Ledger.genesis 1 100000).applyTransaction
        ⟨⟨7, 0, 1, 1, 0, 1000, 10⟩, TransStatus.NEW, 0⟩).2.1.getAccountState 1
        = some ⟨100990, 0⟩
    ∧ ((Ledger.genesis 1 100000).applyTransaction
        ⟨⟨7, 0, 1, 1, 0, 1000, 10⟩, TransStatus.NEW, 0⟩).2.1.getBalance 1
        ≠ 100000 - 1000 := by
  refine ⟨by decide, by decide, by decide⟩

/-- Claim C2 (amended: the sender and the recipient must be distinct
accounts; a self transfer is refuted by
applyTransaction_self_transfer_counterexample): when every precondition of
applyTransaction holds, it returns TR_SUCCESS, the sender's balance
decreases by the amount and its sequence increases by one, the recipient's
balance (0 for a recipient absent before the call, which is implicitly
created) increases by amount minus fee, fee_held increases by the fee, the
transaction's status becomes INCLUDED at the current ledger sequence, and
the updated account states and the transaction are written into their
maps. -/
theorem applyTransaction_success_effects (l : Ledger) (t : Transaction)
    (tm : SMap TransactionData) (am : SMap AccountState) (fv : AccountState)
    (htm : l.transactionMap = some tm) (ham : l.accountStateMap = some am)
    (_hacc : l.accepted = false)
    (hne : t.data.fromAccount ≠ t.data.toAccount)
    (h1 : t.data.sourceLedger ≤ l.ledgerSeq)
    (h2 : t.data.fee ≤ t.data.amount)
    (h3 : peekItem tm t.data.id = none)
    (h4 : peekItem am t.data.fromAccount = some fv)
    (h5 : t.data.amount ≤ fv.balance)
    (h6 : fv.seq = t.data.fromAccountSeq) :
    (l.applyTransaction t).1 = TR_SUCCESS
    ∧ (l.applyTransaction t).2.2
        = { t with status := TransStatus.INCLUDED,
                   statusLedger := l.ledgerSeq }
    ∧ ((l.applyTransaction t).2.1).feeHeld = l.feeHeld + t.data.fee
    ∧ ((l.applyTransaction t).2.1).getAccountState t.data.fromAccount
        = some ⟨fv.balance - t.data.amount, fv.seq + 1⟩
    ∧ ((l.applyTransaction t).2.1).getBalance t.data.toAccount
        = l.getBalance t.data.toAccount + (t.data.amount - t.data.fee)
    ∧ ((l.applyTransaction t).2.1).transactionMap
        = some (updateGiveItem tm t.data.id t.data) := by
  have hnlt1 : ¬ l.ledgerSeq < t.data.sourceLedger := not_lt.mpr h1
  have hnlt2 : ¬ t.data.amount < t.data.fee := not_lt.mpr h2
  have hnlt5 : ¬ fv.balance < t.data.amount := not_lt.mpr h5
  have hnlt6 : ¬ t.data.fromAccountSeq < fv.seq := by omega
  have hnlt7 : ¬ fv.seq < t.data.fromAccountSeq := by omega
  have h3' : (peekItem tm t.data.id).isSome = false := by simp [h3]
  rcases hto : peekItem am t.data.toAccount with _ | tv
  · simp only [Ledger.applyTransaction, htm, ham, h3', hto, h4,
      applyTransactionTail, if_neg hnlt1, if_neg hnlt2, if_neg hnlt5,
      if_neg hnlt6, if_neg hnlt7, Bool.false_eq_true, if_false,
      Ledger.getAccountState, Ledger.getBalance, addGiveItem, h3,
      Option.isSome_none]
    refine ⟨trivial, trivial, trivial, ?_, ?_, trivial⟩
    · rw [peekItem_updateGiveItem_ne _ _ hne, peekItem_updateGiveItem_self]
    · rw [peekItem_updateGiveItem_self]
  · simp only [Ledger.applyTransaction, htm, ham, h3', hto, h4,
      applyTransactionTail, if_neg hnlt1, if_neg hnlt2, if_neg hnlt5,
      if_neg hnlt6, if_neg hnlt7, Bool.false_eq_true, if_false,
      Ledger.getAccountState, Ledger.getBalance, addGiveItem, h3,
      Option.isSome_none]
    refine ⟨trivial, trivial, trivial, ?_, ?_, trivial⟩
    · rw [peekItem_updateGiveItem_ne _ _ hne, peekItem_updateGiveItem_self]
    · rw [peekItem_updateGiveItem_self]

/-- Witness for the amended C2 at the fee-accounting scenario of the spec
(S7): sender 1 with balance 100000, recipient 2 present with balance 0,
amount 1000, fee 10, expected seq 0 — the recipient gains 990, the sender
loses 1000 and fee_held becomes 10. -/
theorem applyTransaction_success_effects_witness :
    (s7Ledger.applyTransaction s7Trans).1 = TR_SUCCESS
    ∧ (s7Ledger.applyTransaction s7Trans).2.2
        = { s7Trans with status := TransStatus.INCLUDED, statusLedger := 0 }
    ∧ ((s7Ledger.applyTransaction s7Trans).2.1).feeHeld = 0 + 10
    ∧ ((s7Ledger.applyTransaction s7Trans).2.1).getAccountState 1
        = some ⟨99000, 1⟩
    ∧ ((s7Ledger.applyTransaction s7Trans).2.1).getBalance 2
        = s7Ledger.getBalance 2 + (1000 - 10)
    ∧ ((s7Ledger.applyTransaction s7Trans).2.1).transactionMap
        = some (updateGiveItem [] 7 s7Trans.data) :=
  applyTransaction_success_effects s7Ledger s7Trans []
    [(1, ⟨100000, 0⟩), (2, ⟨0, 0⟩)] ⟨100000, 0⟩ rfl rfl rfl
    (by decide) (by decide) (by decide) (by decide) (by decide)
    (by decide) (by decide)

/-- Counterexample to claim C3 as stated: exactly the S2 scenario (sender 1
holding 100000, recipient 2 absent, amount 200000 exceeding the balance)
returns TR_INSUFF yet leaves the ledger changed — the implicit-recipient
block created account 2 with balance 0 and seq 1 and wrote it into the
account map before the balance check ran. -/
theorem applyTransaction_failure_mutation_counterexample :
    ((Ledger.genesis 1 100000).applyTransaction
        ⟨⟨7, 0, 1, 2, 0, 200000, 0⟩, TransStatus.NEW, 0⟩).1 = TR_INSUFF
    ∧ ((Ledger.genesis 1 100000).applyTransaction
        ⟨⟨7, 0, 1, 2, 0, 200000, 0⟩, TransStatus.NEW, 0⟩).2.1.getAccountState 2
        = some ⟨0, 1⟩
    ∧ ((Ledger.genesis 1 100000).applyTransaction
        ⟨⟨7, 0, 1, 2, 0, 200000, 0⟩, TransStatus.NEW, 0⟩).2.1
        ≠ Ledger.genesis 1 100000 := by
  refine ⟨by decide, by decide, by decide⟩

/-- Claim C3 (amended: a non-success result leaves the transaction map and
fee_held unchanged, and leaves the account map unchanged as well except
that, when the sender exists and the recipient was absent, the implicitly
created recipient entry (balance 0, seq 1) remains written — the claim as
stated is refuted by applyTransaction_failure_mutation_counterexample). -/
theorem applyTransaction_failure_effects (l : Ledger) (t : Transaction)
    (h : (l.applyTransaction t).1 ≠ TR_SUCCESS) :
    ((l.applyTransaction t).2.1).transactionMap = l.transactionMap
    ∧ ((l.applyTransaction t).2.1).feeHeld = l.feeHeld
    ∧ (((l.applyTransaction t).2.1).accountStateMap = l.accountStateMap
       ∨ ((l.getAccountState t.data.fromAccount).isSome
          ∧ l.getAccountState t.data.toAccount = none
          ∧ ((l.applyTransaction t).2.1).accountStateMap
              = Option.map
                  (fun am => updateGiveItem am t.data.toAccount ⟨0, 1⟩)
                  l.accountStateMap)) := by
  by_cases h1 : l.ledgerSeq < t.data.sourceLedger
  · simp [Ledger.applyTransaction, h1]
  · by_cases h2 : t.data.amount < t.data.fee
    · simp [Ledger.applyTransaction, h1, h2]
    · rcases htm : l.transactionMap with _ | tm <;>
        rcases ham : l.accountStateMap with _ | am
      · simp [Ledger.applyTransaction, h1, h2, htm, ham]
      · simp [Ledger.applyTransaction, h1, h2, htm, ham]
      · simp [Ledger.applyTransaction, h1, h2, htm, ham]
      · by_cases h3 : (peekItem tm t.data.id).isSome
        · simp [Ledger.applyTransaction, h1, h2, htm, ham, h3]
        · rcases hfrom : peekItem am t.data.fromAccount with _ | fv
          · simp [Ledger.applyTransaction, h1, h2, htm, ham, h3, hfrom]
          · rcases hto : peekItem am t.data.toAccount with _ | tv
            · by_cases h5 : fv.balance < t.data.amount
              · simp [Ledger.applyTransaction, applyTransactionTail, h1, h2,
                  htm, ham, h3, hfrom, hto, h5, Ledger.getAccountState]
              · by_cases h6 : t.data.fromAccountSeq < fv.seq
                · simp [Ledger.applyTransaction, applyTransactionTail, h1,
                    h2, htm, ham, h3, hfrom, hto, h5, h6,
                    Ledger.getAccountState]
                · by_cases h7 : fv.seq < t.data.fromAccountSeq
                  · simp [Ledger.applyTransaction, applyTransactionTail, h1,
                      h2, htm, ham, h3, hfrom, hto, h5, h6, h7,
                      Ledger.getAccountState]
                  · exact absurd (by
                      simp [Ledger.applyTransaction, applyTransactionTail,
                        h1, h2, htm, ham, h3, hfrom, hto, h5, h6, h7]) h
            · by_cases h5 : fv.balance < t.data.amount
              · simp [Ledger.applyTransaction, applyTransactionTail, h1, h2,
                  htm, ham, h3, hfrom, hto, h5, Ledger.getAccountState]
              · by_cases h6 : t.data.fromAccountSeq < fv.seq
                · simp [Ledger.applyTransaction, applyTransactionTail, h1,
                    h2, htm, ham, h3, hfrom, hto, h5, h6,
                    Ledger.getAccountState]
                · by_cases h7 : fv.seq < t.data.fromAccountSeq
                  · simp [Ledger.applyTransaction, applyTransactionTail, h1,
                      h2, htm, ham, h3, hfrom, hto, h5, h6, h7,
                      Ledger.getAccountState]
                  · exact absurd (by
                      simp [Ledger.applyTransaction, applyTransactionTail,
                        h1, h2, htm, ham, h3, hfrom, hto, h5, h6, h7]) h

/-- Witness for the amended C3 at a concrete input: a transaction whose
source ledger exceeds the genesis sequence fails with TR_BADLSEQ and leaves
every component untouched. -/
theorem applyTransaction_failure_effects_witness :
    (((Ledger.genesis 1 100000).applyTransaction
        ⟨⟨7, 5, 1, 2, 0, 10, 0⟩, TransStatus.NEW, 0⟩).2.1).transactionMap
      = (Ledger.genesis 1 100000).transactionMap
    ∧ (((Ledger.genesis 1 100000).applyTransaction
        ⟨⟨7, 5, 1, 2, 0, 10, 0⟩, TransStatus.NEW, 0⟩).2.1).feeHeld
      = (Ledger.genesis 1 100000).feeHeld
    ∧ ((((Ledger.genesis 1 100000).applyTransaction
        ⟨⟨7, 5, 1, 2, 0, 10, 0⟩, TransStatus.NEW, 0⟩).2.1).accountStateMap
        = (Ledger.genesis 1 100000).accountStateMap
       ∨ (((Ledger.genesis 1 100000).getAccountState 1).isSome
          ∧ (Ledger.genesis 1 100000).getAccountState 2 = none
          ∧ (((Ledger.genesis 1 100000).applyTransaction
              ⟨⟨7, 5, 1, 2, 0, 10, 0⟩, TransStatus.NEW, 0⟩).2.1).accountStateMap
              = Option.map (fun am => updateGiveItem am 2 ⟨0, 1⟩)
                  (Ledger.genesis 1 100000).accountStateMap)) :=
  applyTransaction_failure_effects (Ledger.genesis 1 100000)
    ⟨⟨7, 5, 1, 2, 0, 10, 0⟩, TransStatus.NEW, 0⟩ (by decide)

/-- Claim C4: when the sender exists and the recipient is absent (and the
earlier checks pass), applyTransaction implicitly creates the recipient with
balance 0 and seq 1 and writes it into the account map before the remaining
checks — so the entry ⟨0, 1⟩ is observable even when a later check fails
(TR_INSUFF / TR_PASTASEQ / TR_PREASEQ), only those codes or TR_SUCCESS can
be returned, and after a successful transfer the recipient holds amount
minus fee at seq 1 (2500 at seq 1 for the spec's S1 transfer of 2500 with
fee 0). -/
theorem applyTransaction_implicit_recipient (l : Ledger) (t : Transaction)
    (tm : SMap TransactionData) (am : SMap AccountState) (fv : AccountState)
    (htm : l.transactionMap = some tm) (ham : l.accountStateMap = some am)
    (h1 : t.data.sourceLedger ≤ l.ledgerSeq)
    (h2 : t.data.fee ≤ t.data.amount)
    (h3 : peekItem tm t.data.id = none)
    (h4 : peekItem am t.data.fromAccount = some fv)
    (hto : peekItem am t.data.toAccount = none) :
    (((l.applyTransaction t).1 = TR_INSUFF
        ∨ (l.applyTransaction t).1 = TR_PASTASEQ
        ∨ (l.applyTransaction t).1 = TR_PREASEQ) →
      ((l.applyTransaction t).2.1).getAccountState t.data.toAccount
        = some ⟨0, 1⟩)
    ∧ ((l.applyTransaction t).1 = TR_SUCCESS →
      ((l.applyTransaction t).2.1).getAccountState t.data.toAccount
        = some ⟨t.data.amount - t.data.fee, 1⟩)
    ∧ ((l.applyTransaction t).1 = TR_INSUFF
       ∨ (l.applyTransaction t).1 = TR_PASTASEQ
       ∨ (l.applyTransaction t).1 = TR_PREASEQ
       ∨ (l.applyTransaction t).1 = TR_SUCCESS) := by
  have hnlt1 : ¬ l.ledgerSeq < t.data.sourceLedger := not_lt.mpr h1
  have hnlt2 : ¬ t.data.amount < t.data.fee := not_lt.mpr h2
  by_cases h5 : fv.balance < t.data.amount
  · simp [Ledger.applyTransaction, applyTransactionTail, hnlt1, hnlt2, htm,
      ham, h3, h4, hto, h5, Ledger.getAccountState,
      peekItem_updateGiveItem_self]
  · by_cases h6 : t.data.fromAccountSeq < fv.seq
    · simp [Ledger.applyTransaction, applyTransactionTail, hnlt1, hnlt2,
        htm, ham, h3, h4, hto, h5, h6, Ledger.getAccountState,
        peekItem_updateGiveItem_self]
    · by_cases h7 : fv.seq < t.data.fromAccountSeq
      · simp [Ledger.applyTransaction, applyTransactionTail, hnlt1, hnlt2,
          htm, ham, h3, h4, hto, h5, h6, h7, Ledger.getAccountState,
          peekItem_updateGiveItem_self]
      · simp [Ledger.applyTransaction, applyTransactionTail, hnlt1, hnlt2,
          htm, ham, h3, h4, hto, h5, h6, h7, Ledger.getAccountState,
          peekItem_updateGiveItem_self]

/-- Witness for C4 at the S1 scenario: genesis master 1 with 100000,
transfer of 2500 with fee 0 to the absent account 2, which afterwards
exists with balance 2500 and seq 1. -/
theorem applyTransaction_implicit_recipient_witness :
    ((((Ledger.genesis 1 100000).applyTransaction
          ⟨⟨7, 0, 1, 2, 0, 2500, 0⟩, TransStatus.NEW, 0⟩).1 = TR_INSUFF
        ∨ ((Ledger.genesis 1 100000).applyTransaction
          ⟨⟨7, 0, 1, 2, 0, 2500, 0⟩, TransStatus.NEW, 0⟩).1 = TR_PASTASEQ
        ∨ ((Ledger.genesis 1 100000).applyTransaction
          ⟨⟨7, 0, 1, 2, 0, 2500, 0⟩, TransStatus.NEW, 0⟩).1 = TR_PREASEQ) →
      (((Ledger.genesis 1 100000).applyTransaction
          ⟨⟨7, 0, 1, 2, 0, 2500, 0⟩, TransStatus.NEW, 0⟩).2.1).getAccountState 2
        = some ⟨0, 1⟩)
    ∧ (((Ledger.genesis 1 100000).applyTransaction
          ⟨⟨7, 0, 1, 2, 0, 2500, 0⟩, TransStatus.NEW, 0⟩).1 = TR_SUCCESS →
      (((Ledger.genesis 1 100000).applyTransaction
          ⟨⟨7, 0, 1, 2, 0, 2500, 0⟩, TransStatus.NEW, 0⟩).2.1).getAccountState 2
        = some ⟨2500 - 0, 1⟩)
    ∧ (((Ledger.genesis 1 100000).applyTransaction
          ⟨⟨7, 0, 1, 2, 0, 2500, 0⟩, TransStatus.NEW, 0⟩).1 = TR_INSUFF
       ∨ ((Ledger.genesis 1 100000).applyTransaction
          ⟨⟨7, 0, 1, 2, 0, 2500, 0⟩, TransStatus.NEW, 0⟩).1 = TR_PASTASEQ
       ∨ ((Ledger.genesis 1 100000).applyTransaction
          ⟨⟨7, 0, 1, 2, 0, 2500, 0⟩, TransStatus.NEW, 0⟩).1 = TR_PREASEQ
       ∨ ((Ledger.genesis 1 100000).applyTransaction
          ⟨⟨7, 0, 1, 2, 0, 2500, 0⟩, TransStatus.NEW, 0⟩).1 = TR_SUCCESS) :=
  applyTransaction_implicit_recipient (Ledger.genesis 1 100000)
    ⟨⟨7, 0, 1, 2, 0, 2500, 0⟩, TransStatus.NEW, 0⟩ []
    [(1, ⟨100000, 0⟩)] ⟨100000, 0⟩ rfl rfl (by decide) (by decide)
    (by decide) (by decide) (by decide)

theorem getHash_snd_hash (l : Ledger) : ((l.getHash).2).hash = (l.getHash).1 := by
  unfold Ledger.getHash
  by_cases h : l.validHash <;> simp [h]

/-- Claim C5 (the code has a bug here): the successor constructor
Ledger(prev, timestamp) sets parent_hash to prev's header hash, ledger_seq
to prev.ledger_seq + 1, an empty transaction map and the shared account
state map — but its member-initializer list omits mFeeHeld (unlike the
genesis and rehydrate constructors), so fee_held is the indeterminate value
of the uninitialized member rather than the 0 the spec states; with
indeterminate value 1 the genesis successor's fee_held is not 0. -/
theorem successor_constructor_fields (prev : Ledger) (ts indet : Nat) :
    ((prev.successor ts indet).1).parentHash = (prev.getHash).1
    ∧ ((prev.successor ts indet).1).ledgerSeq = prev.ledgerSeq + 1
    ∧ ((prev.successor ts indet).1).transactionMap = some []
    ∧ ((prev.successor ts indet).1).accountStateMap = prev.accountStateMap
    ∧ ((prev.successor ts indet).1).feeHeld = indet
    ∧ (((Ledger.genesis 1 100000).successor 0 1).1).feeHeld ≠ 0 :=
  ⟨getHash_snd_hash prev, rfl, rfl, rfl, rfl, by decide⟩

/-- Counterexample to claim C6 as stated: the S7 fee scenario (sender 1
with 100000, recipient 2 with 0, amount 1000, fee 10).  The apply succeeds
and credits the recipient only amount minus fee (990), but
removeTransaction requires the recipient's balance to be at least the full
amount, so the immediate removal fails with TR_INSUFF instead of the
claimed TR_SUCCESS. -/
theorem removeTransaction_after_apply_counterexample :
    (s7Ledger.applyTransaction s7Trans).1 = TR_SUCCESS
    ∧ (((s7Ledger.applyTransaction s7Trans).2.1).removeTransaction
        ((s7Ledger.applyTransaction s7Trans).2.2)).1 = TR_INSUFF := by
  refine ⟨by decide, by decide⟩

/-- Claim C6 (amended: the sender and the recipient must be distinct, the
recipient must already exist in the account map, and its balance must be at
least the fee — otherwise the removal is refuted by
removeTransaction_after_apply_counterexample, since apply credits only
amount minus fee while remove demands the full amount, and an implicitly
created recipient is not deleted again).  Under those conditions,
removeTransaction immediately after a successful applyTransaction returns
TR_SUCCESS and restores the ledger state exactly — in particular the header
fields and both maps, hence the header hash and both map roots — and
re-applying the transaction succeeds again and reproduces exactly the
ledger (hence the header hash) obtained after the first apply. -/
theorem removeTransaction_reverses_apply (l l1 : Ledger) (t t1 : Transaction)
    (tm : SMap TransactionData) (am : SMap AccountState)
    (fv tv : AccountState)
    (htm : l.transactionMap = some tm) (ham : l.accountStateMap = some am)
    (hne : t.data.fromAccount ≠ t.data.toAccount)
    (hfrom : peekItem am t.data.fromAccount = some fv)
    (hto : peekItem am t.data.toAccount = some tv)
    (hfee : t.data.fee ≤ tv.balance)
    (happ : l.applyTransaction t = (TR_SUCCESS, l1, t1)) :
    l1.removeTransaction t1
      = (TR_SUCCESS, l,
         { t1 with status := TransStatus.REMOVED,
                   statusLedger := l.ledgerSeq })
    ∧ l.applyTransaction
        { t1 with status := TransStatus.REMOVED,
                  statusLedger := l.ledgerSeq }
      = (TR_SUCCESS, l1, t1) := by
  have h1 : ¬ l.ledgerSeq < t.data.sourceLedger := by
    intro h1
    simp [Ledger.applyTransaction, h1] at happ
  have h2 : ¬ t.data.amount < t.data.fee := by
    intro h2
    simp [Ledger.applyTransaction, h1, h2] at happ
  have h3 : peekItem tm t.data.id = none := by
    rcases hpk : peekItem tm t.data.id with _ | x
    · rfl
    · simp [Ledger.applyTransaction, h1, h2, htm, ham, hpk] at happ
  have h5 : ¬ fv.balance < t.data.amount := by
    intro h5
    simp [Ledger.applyTransaction, applyTransactionTail, h1, h2, htm, ham,
      h3, hfrom, hto, h5] at happ
  have h6 : ¬ t.data.fromAccountSeq < fv.seq := by
    intro h6
    simp [Ledger.applyTransaction, applyTransactionTail, h1, h2, htm, ham,
      h3, hfrom, hto, h5, h6] at happ
  have h7 : ¬ fv.seq < t.data.fromAccountSeq := by
    intro h7
    simp [Ledger.applyTransaction, applyTransactionTail, h1, h2, htm, ham,
      h3, hfrom, hto, h5, h6, h7] at happ
  have happx : l.applyTransaction t
      = (TR_SUCCESS,
         { l with feeHeld := l.feeHeld + t.data.fee,
                  transactionMap :=
                    some (updateGiveItem tm t.data.id t.data),
                  accountStateMap :=
                    some (updateGiveItem
                      (updateGiveItem am t.data.fromAccount
                        ⟨fv.balance - t.data.amount, fv.seq + 1⟩)
                      t.data.toAccount
                      ⟨tv.balance + (t.data.amount - t.data.fee), tv.seq⟩) },
         { t with status := TransStatus.INCLUDED,
                  statusLedger := l.ledgerSeq }) := by
    simp [Ledger.applyTransaction, applyTransactionTail, h1, h2, htm, ham,
      h3, hfrom, hto, h5, h6, h7, addGiveItem]
  have hpair := happ.symm.trans happx
  rw [Prod.mk.injEq, Prod.mk.injEq] at hpair
  obtain ⟨-, hl1, ht1⟩ := hpair
  subst hl1
  subst ht1
  have hfv : t.data.amount ≤ fv.balance := not_lt.mp h5
  have hp_from :
      peekItem (updateGiveItem
        (updateGiveItem am t.data.fromAccount
          ⟨fv.balance - t.data.amount, fv.seq + 1⟩)
        t.data.toAccount
        ⟨tv.balance + (t.data.amount - t.data.fee), tv.seq⟩)
        t.data.fromAccount
        = some ⟨fv.balance - t.data.amount, fv.seq + 1⟩ := by
    rw [peekItem_updateGiveItem_ne _ _ hne, peekItem_updateGiveItem_self]
  have hp_to :
      peekItem (updateGiveItem
        (updateGiveItem am t.data.fromAccount
          ⟨fv.balance - t.data.amount, fv.seq + 1⟩)
        t.data.toAccount
        ⟨tv.balance + (t.data.amount - t.data.fee), tv.seq⟩)
        t.data.toAccount
        = some ⟨tv.balance + (t.data.amount - t.data.fee), tv.seq⟩ :=
    peekItem_updateGiveItem_self _ _ _
  have hg1 : ¬ tv.balance + (t.data.amount - t.data.fee) < t.data.amount := by
    omega
  have hg2 : ¬ (fv.seq + 1 ≠ t.data.fromAccountSeq + 1) := by omega
  have hdel : delFirst (updateGiveItem tm t.data.id t.data) t.data.id = tm :=
    delFirst_updateGiveItem _ h3
  have hkmem : (peekItem (updateGiveItem am t.data.fromAccount
      ⟨fv.balance - t.data.amount, fv.seq + 1⟩) t.data.fromAccount).isSome := by
    rw [peekItem_updateGiveItem_self]
    rfl
  have hfveq : (⟨fv.balance - t.data.amount + t.data.amount,
      fv.seq + 1 - 1⟩ : AccountState) = fv := by
    have e1 : fv.balance - t.data.amount + t.data.amount = fv.balance := by
      omega
    have e2 : fv.seq + 1 - 1 = fv.seq := by omega
    rw [e1, e2]
  have htveq : (⟨tv.balance + (t.data.amount - t.data.fee) -
      (t.data.amount - t.data.fee), tv.seq⟩ : AccountState) = tv := by
    have e1 : tv.balance + (t.data.amount - t.data.fee) -
        (t.data.amount - t.data.fee) = tv.balance := by omega
    rw [e1]
  have hamfinal :
      updateGiveItem (updateGiveItem
        (updateGiveItem
          (updateGiveItem am t.data.fromAccount
            ⟨fv.balance - t.data.amount, fv.seq + 1⟩)
          t.data.toAccount
          ⟨tv.balance + (t.data.amount - t.data.fee), tv.seq⟩)
        t.data.fromAccount fv) t.data.toAccount tv = am := by
    rw [updateGiveItem_comm _ _ hkmem hne, updateGiveItem_collapse,
      updateGiveItem_collapse, updateGiveItem_peekItem_self hfrom,
      updateGiveItem_peekItem_self hto]
  refine ⟨?_, ?_⟩
  · simp only [Ledger.removeTransaction, hp_from, hp_to, delItem,
      peekItem_updateGiveItem_self, Option.isNone_some, Option.isSome_some,
      Bool.false_eq_true, if_false, if_true, if_neg hg1, if_neg hg2, hdel,
      hfveq, htveq, hamfinal]
    rw [Nat.add_sub_cancel, ← htm, ← ham]
  · simp [Ledger.applyTransaction, applyTransactionTail, h1, h2, htm, ham,
      h3, hfrom, hto, h5, h6, h7, addGiveItem]

/-- Witness for the amended C6 at a concrete input: applying c6Trans to
c6Ledger, removing it again restores c6Ledger exactly, and re-applying it
reproduces c6Ledger1. -/
theorem removeTransaction_reverses_apply_witness :
    c6Ledger1.removeTransaction c6Trans1
      = (TR_SUCCESS, c6Ledger,
         { c6Trans1 with status := TransStatus.REMOVED,
                         statusLedger := c6Ledger.ledgerSeq })
    ∧ c6Ledger.applyTransaction
        { c6Trans1 with status := TransStatus.REMOVED,
                        statusLedger := c6Ledger.ledgerSeq }
      = (TR_SUCCESS, c6Ledger1, c6Trans1) :=
  removeTransaction_reverses_apply c6Ledger c6Ledger1 c6Trans c6Trans1
    [] [(1, ⟨100000, 0⟩), (2, ⟨5000, 0⟩)] ⟨100000, 0⟩ ⟨5000, 0⟩ rfl rfl
    (by decide) (by decide) (by decide) (by decide) (by decide)

theorem toBytesBE_length (w n : Nat) : (toBytesBE w n).length = w := by
  induction w generalizing n with
  | zero => rfl
  | succ w ih => simp [toBytesBE, ih]

/-- Claim C7: the header hash is the SHA-512-half of exactly the 116-byte
big-endian serialization of the six header fields, in the order ledger_seq
(32-bit), fee_held (64-bit), parent_hash (256-bit), trans_hash (256-bit),
account_hash (256-bit), timestamp (64-bit): the byte string addRaw builds
is precisely that concatenation, it is 116 bytes long, and updateHash
stores its SHA-512-half as the header hash and marks it valid. -/
theorem header_hash_serialization (l : Ledger) :
    l.rawHeader
      = toBytesBE 4 l.ledgerSeq ++ toBytesBE 8 l.feeHeld
        ++ toBytesBE 32 l.parentHash ++ toBytesBE 32 l.transHash
        ++ toBytesBE 32 l.accountHash ++ toBytesBE 8 l.timeStamp
    ∧ (l.rawHeader).length = 116
    ∧ (l.updateHash).hash = sha512Half l.rawHeader
    ∧ (l.updateHash).validHash = true := by
  refine ⟨?_, ?_, rfl, rfl⟩
  · simp [Ledger.rawHeader, Ledger.addRaw, Serializer.add32,
      Serializer.add64, Serializer.add256, List.append_assoc]
  · simp [Ledger.rawHeader, Ledger.addRaw, Serializer.add32,
      Serializer.add64, Serializer.add256, toBytesBE_length]

set_option maxRecDepth 20000 in
/-- Claim C8 (the code has a bug here): the cached header hash is NOT
invalidated by mutations.  applyTransaction changes fee_held without
clearing mValidHash (the disabled legacy code in Ledger.cpp sets
mValidHash=false on every mutation, but the live applyTransaction never
does), so after the cache has once been filled, a successful apply leaves
getHash() returning the stale cached hash, different from the SHA-512-half
of the current serialized header: at the genesis ledger for master 1 with
100000, after getHash() and then a successful transfer with fee 10,
fee_held changed yet getHash() still returns the pre-mutation hash. -/
theorem getHash_stale_after_mutation :
    ((((Ledger.genesis 1 100000).getHash).2).applyTransaction
        ⟨⟨7, 0, 1, 2, 0, 1000, 10⟩, TransStatus.NEW, 0⟩).1 = TR_SUCCESS
    ∧ (((((Ledger.genesis 1 100000).getHash).2).applyTransaction
        ⟨⟨7, 0, 1, 2, 0, 1000, 10⟩, TransStatus.NEW, 0⟩).2.1).feeHeld
      ≠ (((Ledger.genesis 1 100000).getHash).2).feeHeld
    ∧ (((((Ledger.genesis 1 100000).getHash).2).applyTransaction
        ⟨⟨7, 0, 1, 2, 0, 1000, 10⟩, TransStatus.NEW, 0⟩).2.1).validHash
      = true
    ∧ ((((((Ledger.genesis 1 100000).getHash).2).applyTransaction
        ⟨⟨7, 0, 1, 2, 0, 1000, 10⟩, TransStatus.NEW, 0⟩).2.1).getHash).1
      ≠ sha512Half (((((Ledger.genesis 1 100000).getHash).2).applyTransaction
            ⟨⟨7, 0, 1, 2, 0, 1000, 10⟩,
              TransStatus.NEW, 0⟩).2.1).rawHeader := by
  refine ⟨by decide, by decide, by decide, by decide⟩

theorem getHash_snd_validHash (l : Ledger) :
    ((l.getHash).2).validHash = true := by
  unfold Ledger.getHash
  by_cases h : l.validHash <;> simp [h, Ledger.updateHash]

/-- Claim C9: loadByIndex and loadByHash reconstruct a ledger through the
rehydrate constructor and verify the recomputed header hash against the
stored LedgerHash: a row whose recomputed hash mismatches its LedgerHash
loads as no ledger, a successful loadByHash returns a ledger whose (valid)
cached header hash equals the hash it was looked up by, and a successful
loadByIndex returns a ledger whose header hash equals the LedgerHash of a
stored row carrying the requested sequence. -/
theorem load_verifies_header_hash :
    (∀ r : LedgerRow,
      ((Ledger.rehydrate r.prevHash r.transHash r.accountHash r.feeHeld
          r.closingTime r.ledgerSeq).getHash).1 ≠ r.ledgerHash →
        getSQL (some r) = none)
    ∧ (∀ (db : List LedgerRow) (h : Nat) (l : Ledger),
        loadByHash db h = some l → l.hash = h ∧ l.validHash = true)
    ∧ (∀ (db : List LedgerRow) (i : Nat) (l : Ledger),
        loadByIndex db i = some l →
          ∃ r, r ∈ db ∧ r.ledgerSeq = i ∧ l.hash = r.ledgerHash) := by
  refine ⟨?_, ?_, ?_⟩
  · intro r hne
    simp [getSQL, hne]
  · intro db h l hl
    rcases hfind : db.find? (fun r => r.ledgerHash == h) with _ | r <;>
      rw [loadByHash, hfind] at hl
    · simp [getSQL] at hl
    · have hr : r.ledgerHash = h := by
        have := List.find?_some hfind
        simpa using this
      rcases hcheck : decide (((Ledger.rehydrate r.prevHash r.transHash
          r.accountHash r.feeHeld r.closingTime r.ledgerSeq).getHash).1
          ≠ r.ledgerHash) with _ | _
      · have heq : ((Ledger.rehydrate r.prevHash r.transHash r.accountHash
            r.feeHeld r.closingTime r.ledgerSeq).getHash).1 = r.ledgerHash := by
          have := of_decide_eq_false hcheck
          exact not_not.mp this
        rw [getSQL] at hl
        rw [if_neg (not_not.mpr heq)] at hl
        obtain rfl := Option.some_injective _ hl
        refine ⟨?_, getHash_snd_validHash _⟩
        rw [getHash_snd_hash, heq, hr]
      · have hne := of_decide_eq_true hcheck
        rw [getSQL] at hl
        rw [if_pos hne] at hl
        cases hl
  · intro db i l hl
    rcases hfind : db.find? (fun r => r.ledgerSeq == i) with _ | r <;>
      rw [loadByIndex, hfind] at hl
    · simp [getSQL] at hl
    · have hr : r.ledgerSeq = i := by
        have := List.find?_some hfind
        simpa using this
      rcases hcheck : decide (((Ledger.rehydrate r.prevHash r.transHash
          r.accountHash r.feeHeld r.closingTime r.ledgerSeq).getHash).1
          ≠ r.ledgerHash) with _ | _
      · have heq : ((Ledger.rehydrate r.prevHash r.transHash r.accountHash
            r.feeHeld r.closingTime r.ledgerSeq).getHash).1 = r.ledgerHash := by
          have := of_decide_eq_false hcheck
          exact not_not.mp this
        rw [getSQL] at hl
        rw [if_neg (not_not.mpr heq)] at hl
        obtain rfl := Option.some_injective _ hl
        exact ⟨r, List.mem_of_find?_eq_some hfind, hr, by
          rw [getHash_snd_hash, heq]⟩
      · have hne := of_decide_eq_true hcheck
        rw [getSQL] at hl
        rw [if_pos hne] at hl
        cases hl

set_option maxRecDepth 20000 in
/-- Witness for C9 at concrete inputs: the corrupted row c9BadRow loads as
none, and loading the well-formed row c9Row by its hash returns the
rehydrated ledger whose cached header hash equals the looked-up hash. -/
theorem load_verifies_header_hash_witness :
    getSQL (some c9BadRow) = none
    ∧ ((Ledger.rehydrate 1 2 3 4 5 6).hash = c9Row.ledgerHash
       ∧ (Ledger.rehydrate 1 2 3 4 5 6).validHash = true) :=
  ⟨load_verifies_header_hash.1 c9BadRow (by decide),
   load_verifies_header_hash.2.1 [c9Row] c9Row.ledgerHash
     (Ledger.rehydrate 1 2 3 4 5 6) (by decide)⟩

/-- Claim C10: for an account identifier absent from the account state map,
getBalance returns 0 and getAccountState returns a null pointer; and for an
existing account whose stored balance is 0 getBalance also returns 0, so
getBalance alone cannot distinguish a non-existent account from an existing
zero-balance one. -/
theorem getBalance_absent_account (l : Ledger) (am : SMap AccountState)
    (a : Nat) (ham : l.accountStateMap = some am) :
    (peekItem am a = none →
      l.getBalance a = 0 ∧ l.getAccountState a = none)
    ∧ (∀ s : Nat, peekItem am a = some ⟨0, s⟩ → l.getBalance a = 0) := by
  constructor
  · intro h
    simp [Ledger.getBalance, Ledger.getAccountState, ham, h]
  · intro s h
    simp [Ledger.getBalance, ham, h]

/-- Witness for C10 at a concrete input: in the ledger whose account map
holds account 1 with 100000 and account 2 with balance 0, the absent
account 3 yields balance 0 and a null account state, indistinguishable
through getBalance from the existing zero-balance account 2. -/
theorem getBalance_absent_account_witness :
    (s7Ledger.getBalance 3 = 0 ∧ s7Ledger.getAccountState 3 = none)
    ∧ s7Ledger.getBalance 2 = 0 :=
  ⟨(getBalance_absent_account s7Ledger
      [(1, ⟨100000, 0⟩), (2, ⟨0, 0⟩)] 3 rfl).1 (by decide),
   (getBalance_absent_account s7Ledger
      [(1, ⟨100000, 0⟩), (2, ⟨0, 0⟩)] 2 rfl).2 0 (by decide)⟩

end RippleLedger
